import Mathlib

/-!
Verification of the Army publications MCP server (`src/app.py`) against its
natural-language specification.

The embedding models:
* the Python string operations used by the code (over `List Char`, ASCII-faithful);
* the format-resolution logic of `extract_document_text` (lines 231-285);
* the PDF/EPUB text extractors (lines 143-229), with the external
  PyPDF2 / ebooklib decode capabilities passed in as function parameters;
* the download-and-extract orchestrator `get_document_text_from_url`
  (lines 288-320) with the transport outcome passed in as a parameter;
* the exposed tool `get_publication` (lines 322-340);
* the HTML results parser `parse_search_results` (lines 41-118) over an
  explicit element-tree model of the BeautifulSoup soup, including the
  Python runtime errors (`AttributeError`, `NameError`) the code can raise.
-/

/-! ## Python-faithful string primitives (over `List Char`) -/

/-- ASCII lowercasing of one character, as `str.lower` / `bytes.lower` act on ASCII. -/
def lowerChar (c : Char) : Char :=
  if c.isUpper then Char.ofNat (c.toNat + 32) else c

/-- Python `s.lower()` (restricted to ASCII case mapping). -/
def strLower (s : String) : String := String.mk (s.data.map lowerChar)

/-- Python `pat in s` (contiguous substring test). -/
def strContains (s pat : String) : Bool :=
  s.data.tails.any fun t => pat.data.isPrefixOf t

/-- Python `s.startswith(pre)`. -/
def strStarts (s pre : String) : Bool := pre.data.isPrefixOf s.data

/-- Python `s.endswith(suf)`. -/
def strEnds (s suf : String) : Bool := suf.data.reverse.isPrefixOf s.data.reverse

/-- Python whitespace class used by `str.strip` (ASCII part). -/
def isPyWhitespace (c : Char) : Bool :=
  c == ' ' || c == '\t' || c == '\n' || c == '\r' || c == '\x0b' || c == '\x0c'

/-- Python `s.strip()`. -/
def strStrip (s : String) : String :=
  String.mk (((s.data.dropWhile isPyWhitespace).reverse.dropWhile isPyWhitespace).reverse)

/-- Python `sep.join(l)`. -/
def strJoin (sep : String) : List String → String
  | [] => ""
  | [x] => x
  | x :: y :: rest => String.mk (x.data ++ sep.data ++ (strJoin sep (y :: rest)).data)

/-- Splits at the first occurrence of `sep` (Python `s.split(sep, 1)` when it splits). -/
def splitFirst (sep : List Char) : List Char → Option (List Char × List Char)
  | [] => if sep.isEmpty then some ([], []) else none
  | c :: rest =>
    if sep.isPrefixOf (c :: rest) then some ([], (c :: rest).drop sep.length)
    else
      match splitFirst sep rest with
      | some (pre, post) => some (c :: pre, post)
      | none => none

/-- The characters after the last occurrence of `sep`, if `sep` occurs
(`l.split(sep)[-1]` together with the `sep in l` test). -/
def lastAfterSep (sep : Char) : List Char → Option (List Char)
  | [] => none
  | c :: rest =>
    match lastAfterSep sep rest with
    | some r => some r
    | none => if c == sep then some rest else none

/-! ## The date regular expression

`re.search(r'(\w{3}\s+\d{1,2},\s+\d{4})', text)` from `parse_search_results`
(line 95), implemented as a leftmost-match scanner.  The only backtracking the
pattern needs is between one and two day digits, and the two alternatives are
mutually exclusive, so the scanner is deterministic. -/

/-- Regex `\w` (ASCII part). -/
def isWordChar (c : Char) : Bool := c.isAlpha || c.isDigit || c == '_'

/-- Regex `\s+`: maximal nonempty run of whitespace, returning (run, rest). -/
def takeSpaces1 (l : List Char) : Option (List Char × List Char) :=
  let sp := l.takeWhile isPyWhitespace
  if sp.isEmpty then none else some (sp, l.dropWhile isPyWhitespace)

/-- Regex `\d{1,2},` with the regex's greedy/backtracking behaviour:
two digits when the comma follows them, else one digit followed by the comma. -/
def takeDay (l : List Char) : Option (List Char × List Char) :=
  match l with
  | d1 :: rest =>
    if d1.isDigit then
      match rest with
      | d2 :: c :: rest2 =>
        if d2.isDigit then
          if c == ',' then some ([d1, d2, ','], rest2) else none
        else if d2 == ',' then some ([d1, ','], c :: rest2)
        else none
      | [d2] => if d2 == ',' then some ([d1, ','], []) else none
      | [] => none
    else none
  | [] => none

/-- Regex `\d{4}`. -/
def takeDigits4 (l : List Char) : Option (List Char × List Char) :=
  match l with
  | d1 :: d2 :: d3 :: d4 :: rest =>
    if d1.isDigit && d2.isDigit && d3.isDigit && d4.isDigit then
      some ([d1, d2, d3, d4], rest)
    else none
  | _ => none

/-- One attempt of the date pattern at the head of `l`. -/
def matchDateAt (l : List Char) : Option (List Char) :=
  match l with
  | c1 :: c2 :: c3 :: rest =>
    if isWordChar c1 && isWordChar c2 && isWordChar c3 then
      match takeSpaces1 rest with
      | none => none
      | some (sp1, r1) =>
        match takeDay r1 with
        | none => none
        | some (day, r2) =>
          match takeSpaces1 r2 with
          | none => none
          | some (sp2, r3) =>
            match takeDigits4 r3 with
            | none => none
            | some (yr, _) => some ([c1, c2, c3] ++ sp1 ++ day ++ sp2 ++ yr)
    else none
  | _ => none

/-- `re.search` for the date pattern: leftmost match wins. -/
def searchDate : List Char → Option String
  | [] => none
  | c :: rest =>
    match matchDateAt (c :: rest) with
    | some m => some (String.mk m)
    | none => searchDate rest

/-! ## Format resolution (`extract_document_text`, lines 242-275) -/

/-- Document content as the Python code sees it: raw bytes, or an HTML string
(the result of `make_pubs_request`). -/
inductive DocContent where
  | bytes : List Nat → DocContent
  | str : String → DocContent

/-- `b'%PDF'`. -/
def pdfMagic : List Nat := [0x25, 0x50, 0x44, 0x46]

/-- `b'PK'` — the prefix of the ZIP local-file-header signature the code tests. -/
def zipMagic : List Nat := [0x50, 0x4B]

/-- `b'epub'`. -/
def epubBytes : List Nat := [0x65, 0x70, 0x75, 0x62]

/-- `bytes.lower()` on one byte (ASCII). -/
def byteLower (b : Nat) : Nat := if 65 ≤ b ∧ b ≤ 90 then b + 32 else b

/-- Python `needle in hay` for byte strings. -/
def bytesContains (hay needle : List Nat) : Bool :=
  hay.tails.any fun t => needle.isPrefixOf t

/-- Modelled from the spec: the MIME-type-from-extension table of the external
Python `mimetypes.guess_type` collaborator (the table itself is standard-library
code, not part of this repository).  The extension is the text after the last
dot of the last path segment, leading dots of the segment excluded; the table is
restricted to the two entries the resolver compares against
(`application/pdf`, `application/epub+zip`), every other extension mapping to
an answer the resolver ignores. -/
def guess_type (url : String) : Option String :=
  let base := match lastAfterSep '/' url.data with
    | some r => r
    | none => url.data
  let stem := base.dropWhile (· == '.')
  match lastAfterSep '.' stem with
  | none => none
  | some extChars =>
    let ext := String.mk (extChars.map lowerChar)
    if ext = "pdf" then some "application/pdf"
    else if ext = "epub" then some "application/epub+zip"
    else none

/-- The hint step of `extract_document_text` (lines 245-250): the Python
`if file_format:` truthiness guard, then the lowercase substring tests. -/
def hintFmt : Option String → Option String
  | none => none
  | some h =>
    if h = "" then none
    else
      if strContains (strLower h) "pdf" then some "pdf"
      else if strContains (strLower h) "epub" || strContains (strLower h) "ebook" then
        some "epub"
      else none

/-- The URL step of `extract_document_text` (lines 253-265): the `if url:`
truthiness guard, the case-insensitive suffix tests, then the MIME table. -/
def urlFmt : Option String → Option String
  | none => none
  | some u =>
    if u = "" then none
    else
      if strEnds (strLower u) ".pdf" then some "pdf"
      else if strEnds (strLower u) ".epub" then some "epub"
      else
        match guess_type u with
        | none => none
        | some m =>
          if m = "application/pdf" then some "pdf"
          else if m = "application/epub+zip" then some "epub"
          else none

/-- The content-sniffing step of `extract_document_text` (lines 268-274);
only byte content is sniffed (`isinstance(doc_content, bytes)`). -/
def sniffFmt : DocContent → Option String
  | .str _ => none
  | .bytes b =>
    if pdfMagic.isPrefixOf b then some "pdf"
    else if zipMagic.isPrefixOf b
        && bytesContains ((b.take 1024).map byteLower) epubBytes then some "epub"
    else none

/-- The format-determination chain of `extract_document_text` (lines 242-275):
hint, then URL, then content sniffing, first assignment wins.  `none` is the
Python `format_type = None` (the spec's UNKNOWN). -/
def detect_format (file_format : Option String) (url : Option String)
    (doc_content : DocContent) : Option String :=
  match hintFmt file_format with
  | some f => some f
  | none =>
    match urlFmt url with
    | some f => some f
    | none => sniffFmt doc_content

/-- Modelled from the spec: resolution rule 1 of section 4.2 — a present hint
whose lowercase form contains `"pdf"` gives PDF, `"epub"` or `"ebook"` EPUB. -/
def hintRule : Option String → Option String
  | none => none
  | some h =>
    if strContains (strLower h) "pdf" then some "pdf"
    else if strContains (strLower h) "epub" || strContains (strLower h) "ebook" then
      some "epub"
    else none

/-- Modelled from the spec: resolution rule 2 of section 4.2 — a present URL
with suffix `.pdf` / `.epub`, else the MIME-type-from-extension table. -/
def urlRule : Option String → Option String
  | none => none
  | some u =>
    if strEnds (strLower u) ".pdf" then some "pdf"
    else if strEnds (strLower u) ".epub" then some "epub"
    else
      match guess_type u with
      | none => none
      | some m =>
        if m = "application/pdf" then some "pdf"
        else if m = "application/epub+zip" then some "epub"
        else none

/-- The 4-byte ZIP local-file-header magic `PK\x03\x04`. -/
def zipLocalFileHeaderMagic : List Nat := [0x50, 0x4B, 0x03, 0x04]

/-- Modelled from the spec: resolution rule 3 of section 4.2 as written — the
4-byte PDF magic gives PDF; bytes starting with the ZIP local-file-header
magic (the 4-byte signature `PK\x03\x04`) together with `"epub"` among the
first 1024 case-folded bytes give EPUB. -/
def bytesRule (bytesPre : List Nat) : Option String :=
  if pdfMagic.isPrefixOf bytesPre then some "pdf"
  else if zipLocalFileHeaderMagic.isPrefixOf bytesPre
      && bytesContains ((bytesPre.take 1024).map byteLower) epubBytes then some "epub"
  else none

/-- Modelled from the spec: the Format Resolver contract of section 4.2 as
written, the numbered rules tried in order, first match wins, UNKNOWN
(`none`) otherwise.  To be compared with `detect_format`, the translation of
the source; the two disagree on bytes that start with `PK` but not with the
full local-file-header magic. -/
def resolveSpec (hint : Option String) (url : Option String)
    (bytesPre : List Nat) : Option String :=
  match hintRule hint with
  | some f => some f
  | none =>
    match urlRule url with
    | some f => some f
    | none => bytesRule bytesPre

/-- Rule 3 amended to what the source's sniff forces: the EPUB branch tests
only the 2-byte ZIP signature prefix `PK` (line 273 is
`doc_content.startswith(b'PK')`), not the full 4-byte local-file-header
magic. -/
def bytesRuleAmended (bytesPre : List Nat) : Option String :=
  if pdfMagic.isPrefixOf bytesPre then some "pdf"
  else if zipMagic.isPrefixOf bytesPre
      && bytesContains ((bytesPre.take 1024).map byteLower) epubBytes then some "epub"
  else none

/-- The Format Resolver rules with rule 3 amended to the 2-byte `PK`
signature prefix, the only change the source forces on the spec's contract. -/
def resolveSpecAmended (hint : Option String) (url : Option String)
    (bytesPre : List Nat) : Option String :=
  match hintRule hint with
  | some f => some f
  | none =>
    match urlRule url with
    | some f => some f
    | none => bytesRuleAmended bytesPre

/-! ## Element-tree model of the BeautifulSoup soup

`parse_search_results` receives the tree the external `BeautifulSoup`
HTML parser built (with `html.parser`, which performs no structural fix-ups:
tags nest exactly as written).  Nodes are referred to by paths (child-index
lists) from the root, so that parent / sibling / document-order navigation is
expressible. -/

mutual
inductive Node where
  | text : String → Node
  | elem : String → List (String × String) → NodeList → Node
inductive NodeList where
  | nil : NodeList
  | cons : Node → NodeList → NodeList
end

/-- Builds a `NodeList` from a `List Node` (concrete-tree convenience). -/
def NodeList.ofList : List Node → NodeList
  | [] => .nil
  | n :: rest => .cons n (NodeList.ofList rest)

/-- Element-node constructor taking a plain list of children. -/
def el (tag : String) (attrs : List (String × String)) (children : List Node) : Node :=
  .elem tag attrs (NodeList.ofList children)

/-- Text-node constructor. -/
def tx (s : String) : Node := .text s

def NodeList.lengthAll : NodeList → Nat
  | .nil => 0
  | .cons _ cs => 1 + cs.lengthAll

def NodeList.getIdx : NodeList → Nat → Option Node
  | .nil, _ => none
  | .cons c _, 0 => some c
  | .cons _ cs, n + 1 => cs.getIdx n

/-- The node a path points to, if any. -/
def Node.at? : Node → List Nat → Option Node
  | n, [] => some n
  | n, i :: p =>
    match n with
    | .text _ => none
    | .elem _ _ cs =>
      match cs.getIdx i with
      | some c => c.at? p
      | none => none

mutual
/-- All paths below (and including) a node, in document (preorder) order —
the order BeautifulSoup's `next_elements` traverses. -/
def Node.paths : Node → List (List Nat)
  | .text _ => [[]]
  | .elem _ _ cs => [] :: NodeList.pathsFrom 0 cs
def NodeList.pathsFrom : Nat → NodeList → List (List Nat)
  | _, .nil => []
  | i, .cons c cs => (c.paths.map (i :: ·)) ++ NodeList.pathsFrom (i + 1) cs
end

def Node.tagIs : Node → String → Bool
  | .elem t _ _, n => t == n
  | .text _, _ => false

/-- Attribute lookup on an element (BeautifulSoup `tag['k']` / `tag.get('k')`). -/
def Node.attr? : Node → String → Option String
  | .text _, _ => none
  | .elem _ attrs _, k => ((attrs.filter fun kv => kv.1 == k).head?).map (·.2)

def Node.hasAttr (n : Node) (k : String) : Bool := (n.attr? k).isSome

/-- Whether the node at `q` is an element with the given tag name. -/
def tagMatchAt (root : Node) (q : List Nat) (tag : String) : Bool :=
  match root.at? q with
  | some n => n.tagIs tag
  | none => false

mutual
/-- All descendant strings of a node in document order (BeautifulSoup `strings`). -/
def Node.strings : Node → List String
  | .text s => [s]
  | .elem _ _ cs => NodeList.stringsAll cs
def NodeList.stringsAll : NodeList → List String
  | .nil => []
  | .cons c cs => c.strings ++ cs.stringsAll
end

/-- BeautifulSoup `get_text(separator=sep, strip=True)`: each string stripped,
empties dropped, the rest joined with `sep`. -/
def getTextSep (sep : String) (n : Node) : String :=
  strJoin sep ((n.strings.map strStrip).filter fun s => !(s == ""))

def renderAttrs : List (String × String) → String
  | [] => ""
  | (k, v) :: rest => " " ++ k ++ "=\"" ++ v ++ "\"" ++ renderAttrs rest

mutual
/-- `str(tag)`: HTML serialization (attributes in stored order, no escaping —
adequate for the substring test the code performs on it). -/
def Node.render : Node → String
  | .text s => s
  | .elem tag attrs cs => "<" ++ tag ++ renderAttrs attrs ++ ">" ++ cs.renderAll ++ "</" ++ tag ++ ">"
def NodeList.renderAll : NodeList → String
  | .nil => ""
  | .cons c cs => c.render ++ cs.renderAll
end

/-- Proper ancestors of a path, nearest first. -/
def properAncestors (p : List Nat) : List (List Nat) :=
  ((List.range p.length).reverse).map fun k => p.take k

/-- BeautifulSoup `find_parent(tag)`: nearest enclosing element with the tag. -/
def findParentTag (root : Node) (p : List Nat) (tag : String) : Option (List Nat) :=
  ((properAncestors p).filter fun q => tagMatchAt root q tag).head?

/-- BeautifulSoup `find_next_sibling(tag)`. -/
def findNextSiblingTag (root : Node) (p : List Nat) (tag : String) : Option (List Nat) :=
  match p.getLast? with
  | none => none
  | some i =>
    let par := p.dropLast
    let n := match root.at? par with
      | some node =>
        match node with
        | .elem _ _ cs => cs.lengthAll
        | .text _ => 0
      | none => 0
    (((List.range n).filter fun j =>
        decide (i < j) && tagMatchAt root (par ++ [j]) tag).head?).map fun j => par ++ [j]

/-- BeautifulSoup `find_next(tag)`: first matching element strictly after `p`
in document order (descendants of `p` included). -/
def findNextTag (root : Node) (p : List Nat) (tag : String) : Option (List Nat) :=
  ((((root.paths).dropWhile fun q => !(q == p)).drop 1).filter fun q =>
    tagMatchAt root q tag).head?

/-- BeautifulSoup `find(tag)` under a node: first matching proper descendant. -/
def findDescendantTag (root : Node) (p : List Nat) (tag : String) : Option (List Nat) :=
  ((root.paths).filter fun q =>
    p.isPrefixOf q && !(q == p) && tagMatchAt root q tag).head?

/-- `soup.find('div', {'id': idVal})` (line 47): first div with the id. -/
def findDivById (root : Node) (idVal : String) : Option (List Nat) :=
  ((root.paths).filter fun q =>
    match root.at? q with
    | some n => n.tagIs "div" && (n.attr? "id" == some idVal)
    | none => false).head?

/-- `results_table.find_all('a', href=True)` (line 53): every anchor element
with an `href` attribute among the container's descendants, document order. -/
def findAllAnchors (root : Node) (container : List Nat) : List (List Nat) :=
  (root.paths).filter fun q =>
    container.isPrefixOf q && !(q == container) &&
      (match root.at? q with
       | some n => n.tagIs "a" && n.hasAttr "href"
       | none => false)

/-! ## The result parser (`parse_search_results`, lines 41-118) -/

/-- One catalog entry, as the dict built at lines 106-114. -/
structure PublicationRecord where
  document_number : String
  title : String
  document_type : String
  file_format : String
  date : String
  description : String
  url : String
deriving DecidableEq, Repr

/-- The Python runtime errors `parse_search_results` can raise:
`AttributeError` from `description_td.find_parent('tr').find_next_sibling('tr')`
when `find_parent('tr')` is `None` (line 85), and `NameError` from reading
`date_text` / `description` (lines 111-112) when no earlier iteration assigned
them (they are only assigned inside `if description_td:`, lines 89-104). -/
inductive PyError where
  | attributeError : PyError
  | nameError : PyError
deriving DecidableEq, Repr

/-- Title split at `" — "` into document number and title (lines 65-67). -/
def splitTitle (t : String) : String × String :=
  match splitFirst " — ".data t.data with
  | some (pre, post) => (String.mk pre, String.mk post)
  | none => (t, "")

/-- `re.match(r'^([A-Z]+)', doc_number)` with default `"Unknown"` (lines 70-71). -/
def doc_type_of (doc_number : String) : String :=
  let run := String.mk (doc_number.data.takeWhile Char.isUpper)
  if run = "" then "Unknown" else run

/-- The fixed credential phrase tested at line 103. -/
def cacPhrase : String := "Common Access Card (CAC) to view it"

/-- The canonical sentence substituted at line 104. -/
def cacSentence : String := "This publication or form requires Common Access Card (CAC) to view it"

/-- Date and description derived from a description cell's full text
(lines 92-104): date by regex search, description the full text unless it
contains the credential phrase, in which case the canonical sentence. -/
def deriveDateDesc (full_text : String) : String × String :=
  let date_text := match searchDate full_text.data with
    | some d => d
    | none => ""
  let description :=
    if strContains full_text cacPhrase then cacSentence else full_text
  (date_text, description)

/-- `file_format` derivation (lines 74-77): default `"pdf"`, overridden by the
text of the next span (in document order) when its serialization carries the
smaller-font marker. -/
def fileFormatOf (root : Node) (p : List Nat) : String :=
  match findNextTag root p "span" with
  | none => "pdf"
  | some sp =>
    match root.at? sp with
    | none => "pdf"
    | some spanNode =>
      if strContains spanNode.render "font-size:smaller" then getTextSep "" spanNode
      else "pdf"

/-- URL normalization (line 113). -/
def absolutize (href : String) : String :=
  if strStarts href "http" then href else "https://armypubs.army.mil" ++ href

/-- The description-cell lookup of lines 80-87: the `td` sibling after the
anchor's enclosing `td`, else the first `td` of the next row.  Raises
`AttributeError` when the enclosing `td` has no `td` sibling and no `tr`
ancestor (the unguarded chained call at line 85). -/
def lookupNextTd (root : Node) (tdP : List Nat) : Except PyError (Option (List Nat)) :=
  match findNextSiblingTag root tdP "td" with
  | some q => .ok (some q)
  | none =>
    match findParentTag root tdP "tr" with
    | none => .error .attributeError
    | some trP =>
      match findNextSiblingTag root trP "tr" with
      | none => .ok none
      | some trP2 => .ok (findDescendantTag root trP2 "td")

/-- The per-anchor loop of lines 55-116.  `dd` carries the current values of
the Python locals `date_text` / `description` across iterations (`none` while
they are still unassigned). -/
def parseLoop (root : Node) (dd : Option (String × String)) :
    List (List Nat) → Except PyError (List PublicationRecord)
  | [] => .ok []
  | p :: rest =>
    match root.at? p with
    | none => parseLoop root dd rest
    | some link =>
      let href := (link.attr? "href").getD ""
      if strContains href "epubs" || strContains href "pub/eforms" then
        let title_text := getTextSep "" link
        if strContains title_text "Record Details" then parseLoop root dd rest
        else
          let nt := splitTitle title_text
          let doc_type := doc_type_of nt.1
          let file_format := fileFormatOf root p
          let url := absolutize href
          match findParentTag root p "td" with
          | some tdP =>
            match lookupNextTd root tdP with
            | .error e => .error e
            | .ok ntd =>
              let ddNew : String × String :=
                match ntd with
                | none => ("", "")
                | some q =>
                  match root.at? q with
                  | none => ("", "")
                  | some tdNode => deriveDateDesc (getTextSep "" tdNode)
              match parseLoop root (some ddNew) rest with
              | .ok rs =>
                .ok (⟨nt.1, nt.2, doc_type, file_format, ddNew.1, ddNew.2, url⟩ :: rs)
              | .error e => .error e
          | none =>
            match dd with
            | none => .error .nameError
            | some ddOld =>
              match parseLoop root dd rest with
              | .ok rs =>
                .ok (⟨nt.1, nt.2, doc_type, file_format, ddOld.1, ddOld.2, url⟩ :: rs)
              | .error e => .error e
      else parseLoop root dd rest

/-- `parse_search_results` (lines 41-118) over the soup tree. -/
def parse_search_results (doc : Node) : Except PyError (List PublicationRecord) :=
  match findDivById doc "MainContent_tblContentSearchResults" with
  | none => .ok []
  | some tableP => parseLoop doc none (findAllAnchors doc tableP)

/-! ## Text extractors (lines 143-229) -/

/-- `extract_pdf_text` (lines 143-173).  The external PyPDF2 decode capability
is `decode_pdf`; an `Except.error` is a decode exception, an `Except.ok` the
ordered page texts.  String input (an HTML page) yields `none`, as does a
decode exception; otherwise the pages joined with a trailing newline each,
then stripped. -/
def extract_pdf_text (decode_pdf : List Nat → Except Unit (List String))
    (doc_content : DocContent) : Option String :=
  match doc_content with
  | .str _ => none
  | .bytes b =>
    match decode_pdf b with
    | .error _ => none
    | .ok pages => some (strStrip (strJoin "" (pages.map fun p => p ++ "\n")))

/-- One item of a decoded EPUB container: its ebooklib item type and its
content as the parsed HTML tree the code feeds to BeautifulSoup. -/
structure EpubItem where
  itemType : Nat
  content : Node

/-- `ebooklib.ITEM_DOCUMENT`. -/
def ITEM_DOCUMENT : Nat := 9

mutual
/-- Removal of `script` / `style` elements (`script.decompose()`, lines 208-209). -/
def Node.stripScripts : Node → Node
  | .text s => .text s
  | .elem t a cs => .elem t a cs.stripScriptsAll
def NodeList.stripScriptsAll : NodeList → NodeList
  | .nil => .nil
  | .cons (.text s) cs => .cons (.text s) cs.stripScriptsAll
  | .cons (.elem t a ch) cs =>
    if t = "script" ∨ t = "style" then cs.stripScriptsAll
    else .cons (Node.stripScripts (.elem t a ch)) cs.stripScriptsAll
end

/-- `extract_epub_text` (lines 175-229).  The external ebooklib decode
capability is `decode_epub` (the temporary-file plumbing it needs is outside
the embedding); document items have their script/style stripped and text
extracted with newline separators, empty texts are dropped, chapters joined
with blank lines, and the result stripped. -/
def extract_epub_text (decode_epub : List Nat → Except Unit (List EpubItem))
    (doc_content : DocContent) : Option String :=
  match doc_content with
  | .str _ => none
  | .bytes b =>
    match decode_epub b with
    | .error _ => none
    | .ok items =>
      let text_content := items.filterMap fun it =>
        if it.itemType = ITEM_DOCUMENT then
          let text := getTextSep "\n" it.content.stripScripts
          if strStrip text = "" then none else some text
        else none
      some (strStrip (strJoin "\n\n" text_content))

/-- `extract_document_text` (lines 231-285): resolve the format, dispatch. -/
def extract_document_text (decode_pdf : List Nat → Except Unit (List String))
    (decode_epub : List Nat → Except Unit (List EpubItem))
    (doc_content : DocContent) (file_format : Option String) (url : Option String) :
    Option String :=
  let ft := detect_format file_format url doc_content
  if ft = some "pdf" then extract_pdf_text decode_pdf doc_content
  else if ft = some "epub" then extract_epub_text decode_epub doc_content
  else none

/-! ## Orchestrator and exposed tool (lines 288-340) -/

/-- The string returned at line 319. -/
def cacMsg : String := "CAC_REQUIRED: This document requires Common Access Card (CAC) authentication"

/-- `get_document_text_from_url` (lines 288-320).  `fetch` is the outcome of
the external transport collaborator: downloaded bytes, or the stringified
exception `str(e)`.  On transport failure the code answers `cacMsg` exactly
when the lowercased failure text mentions both `"redirect"` and
`"federation.eams.army"` (line 318), else the generic failure `none`. -/
def get_document_text_from_url (decode_pdf : List Nat → Except Unit (List String))
    (decode_epub : List Nat → Except Unit (List EpubItem))
    (fetch : Except String (List Nat)) (doc_url : String) (file_format : Option String) :
    Option String :=
  match fetch with
  | .ok content =>
    extract_document_text decode_pdf decode_epub (.bytes content) file_format (some doc_url)
  | .error e =>
    if strContains (strLower e) "redirect" && strContains (strLower e) "federation.eams.army" then
      some cacMsg
    else none

/-- The file-extension hint of line 330: text after the last dot, when a dot occurs. -/
def url_filetype (publication_url : String) : Option String :=
  match lastAfterSep '.' publication_url.data with
  | some r => some (String.mk r)
  | none => none

/-- The fixed failure message of line 338. -/
def failMsg : String :=
  "Failed to extract text from the publication. It may not be a supported format or the content could not be retrieved."

/-- The exposed tool `get_publication` (lines 322-340): any falsy extraction
outcome (`None` or the empty string) collapses to `failMsg`. -/
def get_publication (decode_pdf : List Nat → Except Unit (List String))
    (decode_epub : List Nat → Except Unit (List EpubItem))
    (fetch : Except String (List Nat)) (publication_url : String) : String :=
  match get_document_text_from_url decode_pdf decode_epub fetch publication_url
      (url_filetype publication_url) with
  | some t => if t = "" then failMsg else t
  | none => failMsg

/-! ## Fixture trees (soups of concrete results pages) -/

/-- Soup of
`<div id="MainContent_tblContentSearchResults"><a href="/epubs/x">AR 1-1</a></div>`:
a kept publication anchor with no enclosing table cell at all. -/
def treeNoCell : Node := el "[document]" [] [
  el "div" [("id", "MainContent_tblContentSearchResults")] [
    el "a" [("href", "/epubs/x")] [tx "AR 1-1"] ] ]

/-- Soup of a results page whose first anchor sits in a proper row with a
description cell, followed by a second kept anchor with no enclosing cell. -/
def treeInherit : Node := el "[document]" [] [
  el "div" [("id", "MainContent_tblContentSearchResults")] [
    el "table" [] [
      el "tr" [] [
        el "td" [] [ el "a" [("href", "/epubs/a")] [tx "AR 1-1 — Title One"] ],
        el "td" [] [tx "May 13, 2019 Some text"] ] ],
    el "a" [("href", "/epubs/b")] [tx "AR 2-2 — Title Two"] ] ]

/-- Soup of
`<div id="MainContent_tblContentSearchResults"><td><a href="/epubs/x">AR 1-1</a></td></div>`:
the anchor's enclosing `td` has no `td` sibling and no `tr` ancestor
(`html.parser` performs no table fix-ups, so this tree is what BeautifulSoup
hands the code for that HTML). -/
def treeNoTr : Node := el "[document]" [] [
  el "div" [("id", "MainContent_tblContentSearchResults")] [
    el "td" [] [ el "a" [("href", "/epubs/x")] [tx "AR 1-1"] ] ] ]

/-- Soup of a results page whose description cell carries the credential phrase. -/
def treeCac : Node := el "[document]" [] [
  el "div" [("id", "MainContent_tblContentSearchResults")] [
    el "table" [] [
      el "tr" [] [
        el "td" [] [ el "a" [("href", "/epubs/c")] [tx "AR 3-3 — Secret Doc"] ],
        el "td" [] [tx "You must have a valid Common Access Card (CAC) to view it."] ] ] ] ]

/-! ## Helper lemmas -/

/-- The source's hint step and the spec's rule 1 agree: the only textual
difference is the Python truthiness guard, and an empty hint matches no
substring test anyway. -/
theorem hintFmt_eq_hintRule (hint : Option String) : hintFmt hint = hintRule hint := by
  cases hint with
  | none => rfl
  | some h =>
    by_cases hh : h = ""
    · subst hh; rfl
    · simp only [hintFmt, hintRule, if_neg hh]

/-- The source's URL step and the spec's rule 2 agree: an empty URL fails the
suffix tests and the extension table alike. -/
theorem urlFmt_eq_urlRule (url : Option String) : urlFmt url = urlRule url := by
  cases url with
  | none => rfl
  | some u =>
    by_cases hu : u = ""
    · subst hu; rfl
    · simp only [urlFmt, urlRule, if_neg hu]

/-- Any prefix all of whose characters satisfy `p` is no longer than the
`takeWhile p` run: the leading run is maximal. -/
theorem prefix_all_le_takeWhile (p : Char → Bool) :
    ∀ (t l : List Char), t <+: l → (∀ c ∈ t, p c = true) →
      t.length ≤ (l.takeWhile p).length := by
  intro t
  induction t with
  | nil => exact fun l _ _ => Nat.zero_le _
  | cons c t ih =>
    intro l hpre hall
    obtain ⟨s, hs⟩ := hpre
    subst hs
    have hc : p c = true := hall c (List.mem_cons_self c t)
    have hrest := ih (t ++ s) ⟨s, rfl⟩ (fun x hx => hall x (List.mem_cons_of_mem c hx))
    simpa [List.takeWhile_cons, hc] using Nat.succ_le_succ hrest

/-! ## Claims -/

/-- C1 (counterexample): on a transport failure mentioning the
credential-federation redirect target, `get_document_text_from_url` returns a
string that is NOT prefixed `"ACCESS_RESTRICTED:"` — its prefix is
`"CAC_REQUIRED:"`. -/
theorem c1_counterexample :
    get_document_text_from_url (fun _ => Except.error ()) (fun _ => Except.error ())
        (Except.error "redirect federation.eams.army") "https://x/doc" none = some cacMsg ∧
      strStarts cacMsg "ACCESS_RESTRICTED:" = false :=
  ⟨rfl, rfl⟩

/-- C1 (amended): for every URL whose download attempt ends in a transport
failure whose lowercased description mentions both `"redirect"` and the
credential-federation redirect target `"federation.eams.army"`, the extraction
orchestrator returns a string prefixed `"CAC_REQUIRED:"` rather than the
generic failure result `none`. -/
theorem c1_cac_required (dp : List Nat → Except Unit (List String))
    (de : List Nat → Except Unit (List EpubItem)) (e doc_url : String) (ft : Option String)
    (h1 : strContains (strLower e) "redirect" = true)
    (h2 : strContains (strLower e) "federation.eams.army" = true) :
    get_document_text_from_url dp de (Except.error e) doc_url ft = some cacMsg ∧
      strStarts cacMsg "CAC_REQUIRED:" = true := by
  refine ⟨?_, rfl⟩
  simp [get_document_text_from_url, h1, h2]

theorem c1_cac_required_witness :
    get_document_text_from_url (fun _ => Except.error ()) (fun _ => Except.error ())
      (Except.error "Redirect response: https://federation.eams.army.mil/") "u" none = some cacMsg :=
  (c1_cac_required _ _ _ "u" none (by decide) (by decide)).1

/-- C2 (counterexample): with no hint and no URL, the bytes
`PK\x01\x02epub` start with `PK` but not with the 4-byte ZIP
local-file-header magic `PK\x03\x04`, so the spec's rules as written
(`resolveSpec`) yield UNKNOWN, yet the source's resolver (`detect_format`,
whose sniff tests only `startswith(b'PK')` at line 273) yields EPUB — the
claim's "anything else yields UNKNOWN" is false of the program. -/
theorem c2_counterexample :
    detect_format none none
        (.bytes [0x50, 0x4B, 0x01, 0x02, 0x65, 0x70, 0x75, 0x62]) = some "epub" ∧
      resolveSpec none none [0x50, 0x4B, 0x01, 0x02, 0x65, 0x70, 0x75, 0x62] = none :=
  ⟨rfl, rfl⟩

/-- C2 (amended): the format resolver of the source (`detect_format`, the
format chain of `extract_document_text`) is a pure function of
(hint, URL, byte prefix) that coincides on all inputs with the spec's
first-match-wins rules amended in rule 3 to test only the 2-byte ZIP
signature prefix `PK` (`resolveSpecAmended`); the five listed test vectors
hold. -/
theorem c2_format_resolver_amended :
    (∀ (hint url : Option String) (b : List Nat),
        detect_format hint url (DocContent.bytes b) = resolveSpecAmended hint url b) ∧
      detect_format (some "EPUB (ebook)") none (.bytes []) = some "epub" ∧
      detect_format none (some "https://x/y.PDF") (.bytes []) = some "pdf" ∧
      detect_format none none (.bytes [0x25, 0x50, 0x44, 0x46, 0x2D, 0x31, 0x2E, 0x34]) = some "pdf" ∧
      detect_format none (some "https://x/y")
        (.bytes [0x50, 0x4B, 0x03, 0x04, 0x65, 0x70, 0x75, 0x62]) = some "epub" ∧
      detect_format none none (.bytes [103, 97, 114, 98, 97, 103, 101]) = none := by
  refine ⟨fun hint url b => ?_, rfl, rfl, rfl, rfl, rfl⟩
  unfold detect_format resolveSpecAmended
  rw [hintFmt_eq_hintRule, urlFmt_eq_urlRule]
  cases hintRule hint with
  | some f => rfl
  | none =>
    cases urlRule url with
    | some f => rfl
    | none => rfl

/-- C3 (code evaluated at the failing input): on the soup of
`<div id="MainContent_tblContentSearchResults"><td><a href="/epubs/x">AR 1-1</a></td></div>`
the parser raises `AttributeError` (line 85 calls `.find_next_sibling('tr')`
on the `None` returned by `find_parent('tr')`), contradicting the claim that
`parse` never raises. -/
theorem c3_parse_crash :
    parse_search_results treeNoTr = Except.error PyError.attributeError := rfl

/-- C4 (code evaluated at the failing inputs): a kept anchor with no enclosing
table cell makes the parser raise `NameError` when it is the first anchor
(`date_text`/`description` are unassigned, lines 89-90 sit inside
`if description_td:`), and inherit the previous anchor's date and description
otherwise — never the claimed empty strings. -/
theorem c4_no_cell_bug :
    parse_search_results treeNoCell = Except.error PyError.nameError ∧
      parse_search_results treeInherit = Except.ok [
        ⟨"AR 1-1", "Title One", "AR", "pdf", "May 13, 2019", "May 13, 2019 Some text",
          "https://armypubs.army.mil/epubs/a"⟩,
        ⟨"AR 2-2", "Title Two", "AR", "pdf", "May 13, 2019", "May 13, 2019 Some text",
          "https://armypubs.army.mil/epubs/b"⟩] :=
  ⟨rfl, rfl⟩

/-- C5: whenever a record's description cell text contains the fixed
credential phrase, the derived description is the fixed canonical sentence
verbatim (lines 99-104), not the raw cell text; and end to end, the parser
produces exactly that sentence for a page whose cell carries the phrase. -/
theorem c5_cac_description :
    (∀ full_text : String, strContains full_text cacPhrase = true →
        (deriveDateDesc full_text).2 = cacSentence) ∧
      parse_search_results treeCac = Except.ok [
        ⟨"AR 3-3", "Secret Doc", "AR", "pdf", "", cacSentence,
          "https://armypubs.army.mil/epubs/c"⟩] := by
  refine ⟨fun ft h => ?_, rfl⟩
  simp [deriveDateDesc, h]

theorem c5_cac_description_witness :
    (deriveDateDesc "You need a Common Access Card (CAC) to view it").2 = cacSentence :=
  c5_cac_description.1 _ (by decide)

/-- C6: `document_type` is the maximal leading run of uppercase letters of
`document_number`, and `"Unknown"` when there is no leading uppercase letter;
`"ATP3-21.8"` maps to `"ATP"` and `"123"` to `"Unknown"`. -/
theorem c6_document_type :
    (∀ s : String,
        (s.data.takeWhile Char.isUpper = [] ∧ doc_type_of s = "Unknown" ∧
          (∀ t : List Char, t <+: s.data → (∀ c ∈ t, Char.isUpper c = true) → t = [])) ∨
        (s.data.takeWhile Char.isUpper ≠ [] ∧
          (doc_type_of s).data = s.data.takeWhile Char.isUpper ∧
          (doc_type_of s).data <+: s.data ∧
          (∀ c ∈ (doc_type_of s).data, Char.isUpper c = true) ∧
          (∀ t : List Char, t <+: s.data → (∀ c ∈ t, Char.isUpper c = true) →
            t.length ≤ (doc_type_of s).data.length))) ∧
      doc_type_of "ATP3-21.8" = "ATP" ∧ doc_type_of "123" = "Unknown" := by
  refine ⟨fun s => ?_, rfl, rfl⟩
  by_cases h : s.data.takeWhile Char.isUpper = []
  · left
    refine ⟨h, by simp [doc_type_of, h], fun t hpre hall => ?_⟩
    have hle := prefix_all_le_takeWhile Char.isUpper t s.data hpre hall
    rw [h] at hle
    exact List.eq_nil_of_length_eq_zero (Nat.le_zero.mp hle)
  · right
    have hdata : (doc_type_of s).data = s.data.takeWhile Char.isUpper := by
      unfold doc_type_of
      rw [if_neg fun hcon => h (String.ext_iff.mp hcon)]
    refine ⟨h, hdata, ?_, ?_, ?_⟩
    · rw [hdata]; exact List.takeWhile_prefix _
    · intro c hc; rw [hdata] at hc; exact List.mem_takeWhile_imp hc
    · intro t hpre hall
      rw [hdata]
      exact prefix_all_le_takeWhile Char.isUpper t s.data hpre hall

theorem c6_document_type_witness :
    ['A', 'T'].length ≤ (doc_type_of "ATP3-21.8").data.length := by
  rcases c6_document_type.1 "ATP3-21.8" with ⟨hnil, _, _⟩ | ⟨_, _, _, _, hmax⟩
  · exact absurd hnil (by decide)
  · exact hmax ['A', 'T'] (by decide) (by decide)

/-- C7: a PDF whose decode capability yields the ordered pages
`["Hello", "World"]` extracts to exactly `"Hello\nWorld"` — pages joined with
newline separators and surrounding whitespace stripped (lines 162-169). -/
theorem c7_pdf_roundtrip (decode_pdf : List Nat → Except Unit (List String)) (b : List Nat)
    (h : decode_pdf b = Except.ok ["Hello", "World"]) :
    extract_pdf_text decode_pdf (DocContent.bytes b) = some "Hello\nWorld" := by
  simp only [extract_pdf_text, h]
  rfl

theorem c7_pdf_roundtrip_witness :
    extract_pdf_text (fun _ => Except.ok ["Hello", "World"]) (DocContent.bytes []) = some "Hello\nWorld" :=
  c7_pdf_roundtrip _ [] rfl

/-- C8: a successful decode with zero pages (PDF) or with no non-empty
document item (EPUB) yields the empty string as a successful result `some ""`,
distinct from the failure result `none` produced when the decode capability
throws. -/
theorem c8_empty_success :
    (∀ (dp : List Nat → Except Unit (List String)) (b : List Nat),
        dp b = Except.ok [] → extract_pdf_text dp (DocContent.bytes b) = some "") ∧
      (∀ (de : List Nat → Except Unit (List EpubItem)) (b : List Nat) (items : List EpubItem),
        de b = Except.ok items →
        (∀ it ∈ items, it.itemType = ITEM_DOCUMENT →
          strStrip (getTextSep "\n" it.content.stripScripts) = "") →
        extract_epub_text de (DocContent.bytes b) = some "") ∧
      (∀ (dp : List Nat → Except Unit (List String)) (b : List Nat),
        dp b = Except.error () → extract_pdf_text dp (DocContent.bytes b) = none) ∧
      (∀ (de : List Nat → Except Unit (List EpubItem)) (b : List Nat),
        de b = Except.error () → extract_epub_text de (DocContent.bytes b) = none) ∧
      some "" ≠ (none : Option String) := by
  refine ⟨fun dp b h => ?_, fun de b items h hempty => ?_, fun dp b h => ?_,
    fun de b h => ?_, by simp⟩
  · simp only [extract_pdf_text, h]
    rfl
  · simp only [extract_epub_text, h]
    have hnil : (items.filterMap fun it =>
        if it.itemType = ITEM_DOCUMENT then
          if strStrip (getTextSep "\n" it.content.stripScripts) = "" then none
          else some (getTextSep "\n" it.content.stripScripts)
        else none) = [] := by
      refine List.filterMap_eq_nil_iff.mpr fun it hit => ?_
      by_cases hd : it.itemType = ITEM_DOCUMENT
      · simp [hd, hempty it hit hd]
      · simp [hd]
    rw [hnil]
    rfl
  · simp only [extract_pdf_text, h]
  · simp only [extract_epub_text, h]

theorem c8_empty_success_witness :
    extract_pdf_text (fun _ => Except.ok []) (DocContent.bytes []) = some "" ∧
      extract_epub_text (fun _ => Except.ok [⟨9, tx "  "⟩]) (DocContent.bytes []) = some "" ∧
      extract_pdf_text (fun _ => Except.error ()) (DocContent.bytes []) = none ∧
      extract_epub_text (fun _ => Except.error ()) (DocContent.bytes []) = none := by
  refine ⟨c8_empty_success.1 _ [] rfl, c8_empty_success.2.1 _ [] _ rfl ?_,
    c8_empty_success.2.2.1 _ [] rfl, c8_empty_success.2.2.2.1 _ [] rfl⟩
  intro it hit hdoc
  simp only [List.mem_singleton] at hit
  subst hit
  rfl

/-- C9: when download succeeds and extraction returns the empty string (the
degenerate-but-successful case), the exposed tool `get_publication` returns
the fixed generic failure message (line 333 tests Python truthiness, so the
empty text is indistinguishable from a decode failure at this boundary). -/
theorem c9_empty_collapses (dp : List Nat → Except Unit (List String))
    (de : List Nat → Except Unit (List EpubItem)) (content : List Nat) (u : String)
    (h : extract_document_text dp de (DocContent.bytes content) (url_filetype u) (some u) = some "") :
    get_publication dp de (Except.ok content) u = failMsg := by
  simp only [get_publication, get_document_text_from_url, h]
  rfl

theorem c9_empty_collapses_witness :
    get_publication (fun _ => Except.ok []) (fun _ => Except.error ())
      (Except.ok [1, 2, 3]) "https://x/a.pdf" = failMsg :=
  c9_empty_collapses _ _ [1, 2, 3] "https://x/a.pdf" rfl

/-- C10: the parser is deterministic — two runs on the same soup produce the
same outcome (the embedding is a pure function of the tree; the source keeps
no state across calls). -/
theorem c10_parse_deterministic (doc : Node)
    (r1 r2 : Except PyError (List PublicationRecord))
    (h1 : parse_search_results doc = r1) (h2 : parse_search_results doc = r2) : r1 = r2 := by
  rw [← h1, ← h2]

theorem c10_parse_deterministic_witness :
    (Except.ok [] : Except PyError (List PublicationRecord)) = Except.ok [] :=
  c10_parse_deterministic (el "[document]" [] []) _ _ rfl rfl
